import Mathlib

/-!
Verification of the foundry-cpd GitHub action's cache-key lifecycle
(`src/services/cache.ts`) and gas-snapshot lifecycle (`src/services/gas.ts`)
against their natural-language specification.

The TypeScript source is shallowly embedded: pure computations become Lean
functions, the GitHub-Actions run state (`core.saveState` / `core.getState`)
becomes explicit state passing, the store adapter (`@actions/cache`) and the
filesystem become explicit parameters, and JavaScript numbers are modelled by
exact rationals extended with the IEEE special values `Infinity`, `-Infinity`
and `NaN` (binary64 rounding of finite values is abstracted to exact
arithmetic; the special values produced by division by zero are modelled
exactly).
-/

namespace Foundry

/-! ## Environment

`os.homedir()`, `os.platform()` and `github.context.sha` are ambient inputs of
the program; they are gathered in an explicit environment record. -/

structure Env where
  home : String
  platform : String
  sha : String
deriving DecidableEq

/-- `CacheType` from `src/services/cache.ts`. -/
inductive CacheType
  | rpc
  | artifacts
  | gasSnapshot
deriving DecidableEq

/-- `CACHE_PREFIX = platform + "-foundry-"` from `src/constants.ts`. -/
def CACHE_PREFIX (env : Env) : String := env.platform ++ "-foundry-"

/-- `RPC_CACHE_PREFIX` from `src/constants.ts`. -/
def RPC_CACHE_PREFIX (env : Env) : String := CACHE_PREFIX env ++ "chain-fork-"

/-- `ARTIFACTS_CACHE_PREFIX` from `src/constants.ts`. -/
def ARTIFACTS_CACHE_PREFIX (env : Env) : String := CACHE_PREFIX env ++ "artifacts-"

/-- `GAS_SNAPSHOT_CACHE_PREFIX` from `src/constants.ts`. -/
def GAS_SNAPSHOT_CACHE_PREFIX (env : Env) : String := CACHE_PREFIX env ++ "gas-snapshot-"

/-- `getCachePrefix` from `src/services/cache.ts` (the `default` arm of the
`switch` is unreachable for the three-valued enum and coincides with the
`RPC` arm). -/
def getCachePrefix (env : Env) : CacheType → String
  | .rpc => RPC_CACHE_PREFIX env
  | .artifacts => ARTIFACTS_CACHE_PREFIX env
  | .gasSnapshot => GAS_SNAPSHOT_CACHE_PREFIX env

/-- `CACHE_PATHS` from `src/constants.ts`; `path.join` is modelled as posix
concatenation with a separator. -/
def CACHE_PATHS_RPC (env : Env) : String := env.home ++ "/.foundry/cache/rpc"

/-- `CACHE_PATHS.ARTIFACTS` from `src/constants.ts`. -/
def CACHE_PATHS_ARTIFACTS (env : Env) : String := env.home ++ "/.foundry/cache/artifacts"

/-- `CACHE_PATHS.GAS_SNAPSHOTS` from `src/constants.ts`. -/
def CACHE_PATHS_GAS_SNAPSHOTS (env : Env) : String := env.home ++ "/.foundry/cache/gas-snapshots"

/-- `getCachePaths` from `src/services/cache.ts`. -/
def getCachePaths (env : Env) : CacheType → List String
  | .rpc => [CACHE_PATHS_RPC env]
  | .artifacts => [CACHE_PATHS_ARTIFACTS env]
  | .gasSnapshot => [CACHE_PATHS_GAS_SNAPSHOTS env]

/-! ## JavaScript string helpers -/

/-- JavaScript's `\s` character class (ECMAScript WhiteSpace and
LineTerminator code points), used by `String.prototype.trim` and by the
regular expressions of the source. -/
def jsIsSpace (c : Char) : Bool :=
  let n := c.toNat
  n = 0x20 || n = 0x09 || n = 0x0a || n = 0x0b || n = 0x0c || n = 0x0d ||
  n = 0xa0 || n = 0x1680 || (0x2000 ≤ n && n ≤ 0x200a) || n = 0x2028 || n = 0x2029 ||
  n = 0x202f || n = 0x205f || n = 0x3000 || n = 0xfeff

/-- JavaScript `String.prototype.trim`. -/
def jsTrim (s : String) : String :=
  ⟨((s.data.dropWhile jsIsSpace).reverse.dropWhile jsIsSpace).reverse⟩

/-- JavaScript `a || b` on strings: the empty string is falsy. -/
def jsOrString (a b : String) : String := if a = "" then b else a

/-- Split a character list at every separator character, keeping empty
pieces (the behaviour of JavaScript `String.prototype.split` with a
single-character-class separator). -/
def splitChars (p : Char → Bool) : List Char → List (List Char)
  | [] => [[]]
  | c :: cs =>
    if p c then [] :: splitChars p cs
    else
      match splitChars p cs with
      | [] => [[c]]
      | g :: gs => (c :: g) :: gs

/-- JavaScript `s.split(sep)` for a separator matching single characters. -/
def jsSplit (s : String) (p : Char → Bool) : List String :=
  (splitChars p s.data).map (fun cs => ⟨cs⟩)

/-! ## Key derivation -/

/-- `getPrimaryKey` from `src/services/cache.ts`. `customKeyInput` is
`string | undefined`; JavaScript `!customKeyInput` is true both for
`undefined` and for the empty string. -/
def getPrimaryKey (env : Env) (customKeyInput : Option String) (type : CacheType) : String :=
  let pfx := getCachePrefix env type
  match customKeyInput with
  | none => pfx ++ env.sha
  | some s => if s = "" then pfx ++ env.sha else pfx ++ jsTrim s

/-- `getRestoreKeys` from `src/services/cache.ts`: split the custom input on
`/[\r\n]/`, trim each fragment, drop empty fragments, put the type's key
head in front of each, and append the default (bare head) keys. -/
def getRestoreKeys (env : Env) (customRestoreKeysInput : Option String) (type : CacheType) :
    List String :=
  let pfx := getCachePrefix env type
  let defaultRestoreKeys := [pfx]
  match customRestoreKeysInput with
  | none => defaultRestoreKeys
  | some s =>
    if s = "" then defaultRestoreKeys
    else
      let restoreKeys :=
        (((jsSplit s (fun c => c == '\r' || c == '\n')).map jsTrim).filter
          (fun input => input ≠ "")).map (fun input => pfx ++ input)
      restoreKeys ++ defaultRestoreKeys

/-- The restore-key derivation as the (amended) spec describes it: split the
input on line breaks, trim each line, discard blank lines, put the type's key
head in front of each surviving line (duplicates retained), and append the
bare head last; absent input gives the bare head alone. Stated from the
spec's words to be compared with `getRestoreKeys`. -/
def deriveRestoreKeysAmended (bareKey : String) (input : Option String) : List String :=
  match input with
  | none => [bareKey]
  | some s =>
    ((((jsSplit s (fun c => c == '\r' || c == '\n')).map jsTrim).filter
      (fun f => f ≠ "")).map (fun f => bareKey ++ f)) ++ [bareKey]

/-! ## Cache operations

The GitHub-Actions run state (`core.saveState` / `core.getState`) is passed
explicitly; `core.getState` yields `""` for a key never saved. The store
adapter's responses are parameters: `restoreCache`'s store call either throws,
returns `undefined`, or returns the matched key; `saveCache`'s store call
either throws or returns a cache id (`-1` on a logged failure). -/

structure RunState where
  cachePrimaryKey : String
  cacheMatchedKey : String
deriving DecidableEq

/-- `CacheOptions` from `src/types/index.ts` (the fields the cache service
reads). -/
structure CacheOptions where
  enabled : Bool
  primaryKey : Option String
  restoreKeys : Option (List String)
  paths : Option (List String)
deriving DecidableEq

/-- `CacheResult` from `src/types/index.ts`. -/
structure CacheResult where
  primaryKey : String
  matchedKey : Option String
  cacheHit : Bool
deriving DecidableEq

/-- Response of the store adapter's `cache.restoreCache` call. -/
inductive StoreRestoreOutcome
  | matched (key : String)
  | noMatch
  | thrown (msg : String)
deriving DecidableEq

/-- Response of the store adapter's `cache.saveCache` call. -/
inductive StoreSaveOutcome
  | saved (cacheId : Int)
  | thrown (msg : String)
deriving DecidableEq

/-- `options.paths || getCachePaths(type)` as both `restoreCache` and
`saveCache` resolve the cache paths (an explicitly supplied empty array is
truthy in JavaScript and is kept). -/
def resolveCachePaths (env : Env) (options : CacheOptions) (type : CacheType) : List String :=
  match options.paths with
  | some ps => ps
  | none => getCachePaths env type

/-- `restoreCache` from `src/services/cache.ts`. Returns the `CacheResult`
together with the updated run state. The store's answer is the `store`
parameter; a thrown store error is caught and handled like a miss (after the
primary key was already persisted). JavaScript `!matchedKey` also treats an
empty-string key as a miss. -/
def restoreCache (env : Env) (options : CacheOptions) (type : CacheType)
    (store : StoreRestoreOutcome) (st : RunState) : CacheResult × RunState :=
  if !options.enabled then
    ({ primaryKey := "", matchedKey := none, cacheHit := false }, st)
  else
    let primaryKey := getPrimaryKey env options.primaryKey type
    let st1 := { st with cachePrimaryKey := primaryKey }
    match store with
    | .noMatch => ({ primaryKey, matchedKey := none, cacheHit := false }, st1)
    | .thrown _ => ({ primaryKey, matchedKey := none, cacheHit := false }, st1)
    | .matched k =>
      if k = "" then ({ primaryKey, matchedKey := none, cacheHit := false }, st1)
      else
        ({ primaryKey, matchedKey := some k, cacheHit := true },
          { st1 with cacheMatchedKey := k })

/-- `saveCache` from `src/services/cache.ts`. The first component is the
returned boolean; the second records whether the store's `saveCache`
operation was invoked at all. -/
def saveCache (env : Env) (options : CacheOptions) (type : CacheType)
    (st : RunState) (fileExists : String → Bool) (store : StoreSaveOutcome) :
    Bool × Bool :=
  if !options.enabled then (false, false)
  else
    let primaryKey := jsOrString st.cachePrimaryKey (getPrimaryKey env options.primaryKey type)
    let matchedKey := st.cacheMatchedKey
    let cachePaths := resolveCachePaths env options type
    if !(cachePaths.all fileExists) then (false, false)
    else if primaryKey = "" then (false, false)
    else if primaryKey = matchedKey then (false, false)
    else
      match store with
      | .saved cacheId => if cacheId = -1 then (false, true) else (true, true)
      | .thrown _ => (false, true)

/-! ## JavaScript numbers

Gas values are integers (parsed with `parseInt`); the only non-integer
arithmetic in the source is `(change / previous.gasUsed) * 100`. A JavaScript
number is modelled as an exact rational or one of the IEEE special values. -/

inductive JsNum
  | fin (q : ℚ)
  | posInf
  | negInf
  | nan
deriving DecidableEq

/-- JavaScript division of two integer-valued numbers: division by zero
yields `Infinity`, `-Infinity` or `NaN` according to the sign of the
dividend; otherwise the exact quotient (binary64 rounding abstracted away). -/
def jsDivInt (a b : Int) : JsNum :=
  if b = 0 then
    if 0 < a then .posInf else if a < 0 then .negInf else .nan
  else .fin ((a : ℚ) / (b : ℚ))

/-- JavaScript multiplication of a number by the literal `100`. -/
def jsMul100 : JsNum → JsNum
  | .fin q => .fin (q * 100)
  | .posInf => .posInf
  | .negInf => .negInf
  | .nan => .nan

/-- `Math.abs(x) >= t` for a positive finite threshold `t`. -/
def jsAbsGe : JsNum → ℚ → Bool
  | .fin q, t => decide (t ≤ |q|)
  | .posInf, _ => true
  | .negInf, _ => true
  | .nan, _ => false

/-! ## Gas snapshot data model (`GasSnapshot` from `src/types/index.ts`)

A JavaScript record is modelled as an association list in insertion order
(string keys of a JS object preserve insertion order, and are unique). -/

structure GasComparison where
  previous : Int
  change : Int
  changePercentage : JsNum
deriving DecidableEq

structure GasEntry where
  gasUsed : Int
  comparison : Option GasComparison
deriving DecidableEq

structure GasSnapshot where
  timestamp : String
  commitSha : String
  testResults : List (String × GasEntry)
deriving DecidableEq

/-- `GAS_SNAPSHOT_COMPARISON_THRESHOLD = 5` from `src/constants.ts`. -/
def GAS_SNAPSHOT_COMPARISON_THRESHOLD : ℚ := 5

/-! ## `compareGasSnapshots` -/

/-- The entry value after one step of `compareGasSnapshots`'s loop: if the
previous record holds the same test name, `{...current, comparison:
{previous, change, changePercentage}}`; otherwise the entry untouched. -/
def comparedEntry (prevResults : List (String × GasEntry)) (p : String × GasEntry) :
    GasEntry :=
  match prevResults.lookup p.1 with
  | some prev =>
    { p.2 with
      comparison := some
        { previous := prev.gasUsed
          change := p.2.gasUsed - prev.gasUsed
          changePercentage := jsMul100 (jsDivInt (p.2.gasUsed - prev.gasUsed) prev.gasUsed) } }
  | none => p.2

/-- One step of `compareGasSnapshots`'s loop (the assignment
`result.testResults[testName] = ...` keeps the key). -/
def compareEntry (prevResults : List (String × GasEntry)) (p : String × GasEntry) :
    String × GasEntry :=
  (p.1, comparedEntry prevResults p)

/-- `compareGasSnapshots` from `src/services/gas.ts`: copy the current
snapshot, then attach comparison data to every test that the previous
snapshot also holds. -/
def compareGasSnapshots (currentSnapshot previousSnapshot : GasSnapshot) : GasSnapshot :=
  { currentSnapshot with
    testResults := currentSnapshot.testResults.map (compareEntry previousSnapshot.testResults) }

/-! ## `addGasSnapshotToHistory`

The pure core of `addGasSnapshotToHistory` from `src/services/gas.ts`: the
history list read from the history file is pushed onto and truncated with
`history.slice(-100)`; the result is what gets written back. -/

def addGasSnapshotToHistory (history : List GasSnapshot) (snapshot : GasSnapshot) :
    List GasSnapshot :=
  let pushed := history ++ [snapshot]
  pushed.drop (pushed.length - 100)

/-! ## `generateGasReport` -/

/-- `testResults[name]` on the association list. -/
def entryOf (s : GasSnapshot) (name : String) : Option GasEntry :=
  s.testResults.lookup name

/-- `testResults[testName].comparison !== undefined` (test names always come
from the record's own keys, so the entry is present). -/
def hasComparison (s : GasSnapshot) (name : String) : Bool :=
  match entryOf s name with
  | some e => e.comparison.isSome
  | none => false

/-- `testResults[name].comparison?.changePercentage || 0`, the sort key of the
report: an absent comparison and a `NaN` percentage are both replaced by `0`
(`||` maps every falsy value to the right operand), infinities and nonzero
finite values pass through. -/
def sortChangeOf (s : GasSnapshot) (name : String) : JsNum :=
  match entryOf s name with
  | some e =>
    match e.comparison with
    | some c =>
      match c.changePercentage with
      | .nan => .fin 0
      | x => x
    | none => .fin 0
  | none => .fin 0

/-- `testResults[name].comparison?.change || 0` of the report's summary. -/
def changeOf (s : GasSnapshot) (name : String) : Int :=
  match entryOf s name with
  | some e =>
    match e.comparison with
    | some c => c.change
    | none => 0
  | none => 0

/-- The rank of a sort key: infinities above and below every finite value.
`NaN` never reaches the comparator (the `|| 0` of `sortChangeOf` eliminates
it); it is ranked like `0`, which is also what the ECMAScript `SortCompare`
rule "a comparator result of `NaN` counts as `+0`" gives it. -/
def numRank : JsNum → Int × ℚ
  | .posInf => (1, 0)
  | .negInf => (-1, 0)
  | .nan => (0, 0)
  | .fin q => (0, q)

/-- The report's comparator `(a, b) => bChange - aChange` turned into the
"may `x` stay before `y`" relation of a stable sort: true iff the comparator
is `<= 0` (or `NaN`, which `SortCompare` counts as `+0`), i.e. iff the rank
of `y` is at most the rank of `x`. -/
def descLe (x y : JsNum) : Bool :=
  let rx := numRank x
  let ry := numRank y
  decide (ry.1 < rx.1) || (decide (ry.1 = rx.1) && decide (ry.2 ≤ rx.2))

/-- `[...testsWithComparison].sort((a, b) => bChange - aChange)` of
`generateGasReport`: JavaScript's `Array.prototype.sort` is a stable sort, so
it is modelled by the stable `List.mergeSort`. -/
def sortedComparisonTests (s : GasSnapshot) : List String :=
  ((s.testResults.map Prod.fst).filter (fun n => hasComparison s n)).mergeSort
    (fun a b => descLe (sortChangeOf s a) (sortChangeOf s b))

/-- `Number.prototype.toFixed(2)`: sign, then the magnitude rounded to two
decimal places (ties toward the larger magnitude digit string, per the
ECMAScript `toFixed` algorithm); the special values print as their names. -/
def toFixed2 : JsNum → String
  | .posInf => "Infinity"
  | .negInf => "-Infinity"
  | .nan => "NaN"
  | .fin q =>
    let sign := if q < 0 then "-" else ""
    let m := (round (|q| * 100)).toNat
    sign ++ toString (m / 100) ++ "." ++ (if m % 100 < 10 then "0" else "") ++ toString (m % 100)

/-- The emoji indicator of one report row: attached only when
`Math.abs(changePercentage) >= GAS_SNAPSHOT_COMPARISON_THRESHOLD`, red for an
increase and green otherwise. -/
def indicatorOf (c : GasComparison) : String :=
  if jsAbsGe c.changePercentage GAS_SNAPSHOT_COMPARISON_THRESHOLD then
    (if 0 < c.change then " 🔴" else " 🟢")
  else ""

/-- One table row of the report (`''` for the unreachable guard
`if (!comparison) continue`). -/
def reportRow (s : GasSnapshot) (name : String) : String :=
  match entryOf s name with
  | none => ""
  | some e =>
    match e.comparison with
    | none => ""
    | some c =>
      let changeFormatted := if 0 < c.change then "+" ++ toString c.change else toString c.change
      "| " ++ name ++ " | " ++ toString e.gasUsed ++ " | " ++ toString c.previous ++ " | "
        ++ changeFormatted ++ " | " ++ toFixed2 c.changePercentage ++ "%" ++ indicatorOf c
        ++ " |\n"

/-- `'No gas snapshot data available.'` from `src/services/gas.ts`. -/
def NO_DATA_MESSAGE : String := "No gas snapshot data available."

/-- `'No comparison data available for gas snapshot.'` from
`src/services/gas.ts`. -/
def NO_COMPARISON_MESSAGE : String := "No comparison data available for gas snapshot."

/-- `generateGasReport` from `src/services/gas.ts`. -/
def generateGasReport (snapshot : GasSnapshot) : String :=
  let testNames := snapshot.testResults.map Prod.fst
  if testNames.length = 0 then NO_DATA_MESSAGE
  else
    let testsWithComparison := testNames.filter (fun n => hasComparison snapshot n)
    if testsWithComparison.length = 0 then NO_COMPARISON_MESSAGE
    else
      let sortedTests := sortedComparisonTests snapshot
      let header := "## Gas Snapshot Comparison\n\n"
        ++ "| Test | Current Gas | Previous Gas | Change | % Change |\n"
        ++ "|------|-------------|--------------|--------|----------|\n"
      let rows := String.join (sortedTests.map (reportRow snapshot))
      let increases := (sortedTests.filter (fun n => decide (0 < changeOf snapshot n))).length
      let decreases := (sortedTests.filter (fun n => decide (changeOf snapshot n < 0))).length
      let unchanged := (sortedTests.filter (fun n => decide (changeOf snapshot n = 0))).length
      header ++ rows
        ++ "\n### Summary\n\n"
        ++ "- 🔴 Gas increases: " ++ toString increases ++ "\n"
        ++ "- 🟢 Gas decreases: " ++ toString decreases ++ "\n"
        ++ "- ⚪ Unchanged: " ++ toString unchanged ++ "\n"
        ++ "- Total tests compared: " ++ toString sortedTests.length ++ "\n"

/-! ## `parseGasSnapshot`

`parseGasSnapshot` splits its input on `'\n'` and matches every line against
the regular expression `/^(.*?)\s+\(gas:\s+(\d+)\)/`. The regex engine is
embedded directly: `(.*?)` is the lazy (shortest leftmost) group of
dot-matchable characters, `\s+` a nonempty whitespace run, `(\d+)` a greedy
nonempty digit run. Because `'('` is not whitespace, `')'` is not a digit and
a digit is not whitespace, the greedy runs never backtrack, so the match is
the deterministic scan below. -/

/-- The regex metacharacter `.`: any character except a line terminator. -/
def jsDotMatch (c : Char) : Bool :=
  let n := c.toNat
  !(n = 0x0a || n = 0x0d || n = 0x2028 || n = 0x2029)

/-- Value of a nonempty decimal digit run (`parseInt(gasUsed, 10)`). -/
def digitsToNat (ds : List Char) : Nat :=
  ds.foldl (fun acc c => 10 * acc + (c.toNat - '0'.toNat)) 0

/-- Strip a literal character sequence. -/
def stripLit : List Char → List Char → Option (List Char)
  | [], cs => some cs
  | _ :: _, [] => none
  | l :: ls, c :: cs => if c = l then stripLit ls cs else none

/-- Match `\s+\(gas:\s+(\d+)\)` at the start of `cs`, yielding the captured
gas value. -/
def matchGasTail (cs : List Char) : Option Nat :=
  let ws := cs.takeWhile jsIsSpace
  if ws.isEmpty then none
  else
    match stripLit "(gas:".data (cs.drop ws.length) with
    | none => none
    | some r2 =>
      let ws2 := r2.takeWhile jsIsSpace
      if ws2.isEmpty then none
      else
        let r3 := r2.drop ws2.length
        let ds := r3.takeWhile Char.isDigit
        if ds.isEmpty then none
        else
          match r3.drop ds.length with
          | ')' :: _ => some (digitsToNat ds)
          | _ => none

/-- Lazy search for the split point of `^(.*?)\s+\(gas:\s+(\d+)\)`: the group
grows one dot-matchable character at a time, and the first split whose tail
matches wins. -/
def findGasMatch (pre : List Char) : List Char → Option (List Char × Nat)
  | [] =>
    match matchGasTail [] with
    | some g => some (pre, g)
    | none => none
  | c :: cs =>
    match matchGasTail (c :: cs) with
    | some g => some (pre, g)
    | none => if jsDotMatch c then findGasMatch (pre ++ [c]) cs else none

/-- `line.match(/^(.*?)\s+\(gas:\s+(\d+)\)/)`, yielding the trimmed test name
and the gas value on a match. -/
def matchGasLine (line : String) : Option (String × Nat) :=
  match findGasMatch [] line.data with
  | some (name, g) => some (jsTrim ⟨name⟩, g)
  | none => none

/-- `result[testName] = gasUsed` on the association-list model of a record:
overwrite in place if the key exists, append otherwise. -/
def insertResult (m : List (String × Nat)) (k : String) (v : Nat) : List (String × Nat) :=
  if m.any (fun p => p.1 = k) then m.map (fun p => if p.1 = k then (k, v) else p)
  else m ++ [(k, v)]

/-- The body of `parseGasSnapshot`'s line loop. -/
def parseGasStep (acc : List (String × Nat)) (line : String) : List (String × Nat) :=
  match matchGasLine line with
  | some (name, gas) => insertResult acc name gas
  | none => acc

/-- The line loop of `parseGasSnapshot`. -/
def parseGasLines (lines : List String) : List (String × Nat) :=
  lines.foldl parseGasStep []

/-- `parseGasSnapshot` from `src/services/gas.ts`. The embedded body is total
(the `try`/`catch` around it is dead: no statement of the loop throws), so
the function never throws and degrades to a partial or empty mapping on
malformed input. -/
def parseGasSnapshot (snapshotOutput : String) : List (String × Nat) :=
  parseGasLines (jsSplit snapshotOutput (fun c => c == '\n'))

/-- A concrete 100-record history (distinct first two records) used as a
verification input. -/
def exampleHistory : List GasSnapshot :=
  ⟨"a", "", []⟩ :: ⟨"b", "", []⟩ :: List.replicate 98 ⟨"c", "", []⟩

/-! ## A heap model of `compareGasSnapshots` for the frame property

To state that `compareGasSnapshots` mutates neither argument, the JavaScript
object graph is made explicit: a heap is a list of objects addressed by
index, an allocation appends, an assignment writes one address. The source
allocates a copy of the current snapshot's `testResults` record and of the
snapshot object (`{...currentSnapshot, testResults: {...}}`) and then assigns
only fields of the fresh record (`result.testResults[testName] = {...}`),
so no address that existed before the call is ever written. -/

inductive HeapObj
  | entry (gasUsed : Int) (comparison : Option GasComparison)
  | table (fields : List (String × Nat))
  | snap (timestamp commitSha : String) (testResults : Nat)
deriving DecidableEq

/-- A heap of JavaScript objects; an address is an index. -/
abbrev Heap : Type := List HeapObj

/-- `fields[name] = v` on a record object's fields (overwrite keeps the key's
position, a new key is appended — insertion order of JS objects). -/
def setField (fs : List (String × Nat)) (name : String) (v : Nat) : List (String × Nat) :=
  if fs.any (fun p => p.1 = name) then fs.map (fun p => if p.1 = name then (name, v) else p)
  else fs ++ [(name, v)]

/-- One iteration of the heap loop below, for the captured entry `(name,
addr)`: when the previous record holds the name and both addresses hold
entry objects, a new entry object (`{...current, comparison: {...}}`) is
allocated and assigned into the fresh results record at `resTbl`; otherwise
the heap is unchanged. -/
def compareStepHeap (resTbl : Nat) (prevFields : List (String × Nat))
    (name : String) (addr : Nat) (h : Heap) : Heap :=
  match prevFields.lookup name with
  | none => h
  | some prevAddr =>
    match h[addr]?, h[prevAddr]? with
    | some (.entry g _), some (.entry pg _) =>
      let fresh : HeapObj :=
        .entry g (some
          { previous := pg
            change := g - pg
            changePercentage := jsMul100 (jsDivInt (g - pg) pg) })
      let h1 := h ++ [fresh]
      match h1[resTbl]? with
      | some (.table fs) => h1.set resTbl (.table (setField fs name h.length))
      | _ => h1
    | _, _ => h

/-- The loop `for (const [testName, current] of Object.entries(result.testResults))`
over the heap: `fields` is the entries array captured at loop entry (name and
address of each current entry), `resTbl` the address of the fresh copy of the
results record. -/
def compareLoop (resTbl : Nat) (prevFields : List (String × Nat)) :
    List (String × Nat) → Heap → Heap
  | [], h => h
  | (name, addr) :: rest, h =>
    compareLoop resTbl prevFields rest (compareStepHeap resTbl prevFields name addr h)

/-- `compareGasSnapshots` on the heap: read both snapshot objects and their
results records, allocate the copies, run the loop, and return the heap with
the address of the result snapshot. A shape violation (an address not holding
the object the TypeScript types promise) is a no-op returning the current
snapshot's address. -/
def compareGasSnapshotsHeap (h : Heap) (cur prev : Nat) : Heap × Nat :=
  match h[cur]?, h[prev]? with
  | some (.snap ts sha curTbl), some (.snap _ _ prevTbl) =>
    match h[curTbl]?, h[prevTbl]? with
    | some (.table curFields), some (.table prevFields) =>
      let h1 := h ++ [HeapObj.table curFields]
      let h2 := h1 ++ [HeapObj.snap ts sha h.length]
      (compareLoop h.length prevFields curFields h2, h1.length)
    | _, _ => (h, cur)
  | _, _ => (h, cur)

/-- A concrete six-object heap (two snapshots referencing one entry each)
used as a verification input. -/
def exampleHeap : Heap :=
  [.entry 100 none, .entry 0 none, .table [("t", 0)], .table [("t", 1)],
    .snap "t1" "s1" 2, .snap "t0" "s0" 3]

/-! ## Helper lemmas -/

theorem str_append_ne_empty_left (a b : String) (ha : a ≠ "") : a ++ b ≠ "" := by
  intro h
  apply ha
  have hd : a.data ++ b.data = [] := by
    have h2 := congrArg String.data h
    rwa [String.data_append] at h2
  exact String.ext (List.append_eq_nil.mp hd).1

theorem str_append_ne_empty_right (a b : String) (hb : b ≠ "") : a ++ b ≠ "" := by
  intro h
  apply hb
  have hd : a.data ++ b.data = [] := by
    have h2 := congrArg String.data h
    rwa [String.data_append] at h2
  exact String.ext (List.append_eq_nil.mp hd).2

theorem getCachePrefix_ne_empty (env : Env) (type : CacheType) :
    getCachePrefix env type ≠ "" := by
  cases type <;> exact str_append_ne_empty_right _ _ (by decide)

theorem getPrimaryKey_ne_empty (env : Env) (customKeyInput : Option String)
    (type : CacheType) : getPrimaryKey env customKeyInput type ≠ "" := by
  unfold getPrimaryKey
  match customKeyInput with
  | none => exact str_append_ne_empty_left _ _ (getCachePrefix_ne_empty env type)
  | some s =>
    by_cases hs : s = "" <;>
      simp [hs, str_append_ne_empty_left _ _ (getCachePrefix_ne_empty env type)]

/-! ## Claims about key derivation -/

/-- C4 counterexample: the claim says duplicate fragments of the custom
restore-key input are discarded, but `getRestoreKeys` never deduplicates: the
input `"dup\ndup"` yields the prefixed fragment twice. -/
theorem getRestoreKeys_dup_cex :
    getRestoreKeys ⟨"/home/user", "win32", "sha0"⟩ (some "dup\ndup") .rpc =
      ["win32-foundry-chain-fork-dup", "win32-foundry-chain-fork-dup",
        "win32-foundry-chain-fork-"] ∧
    ¬ (getRestoreKeys ⟨"/home/user", "win32", "sha0"⟩ (some "dup\ndup") .rpc).Nodup := by
  constructor <;> decide

/-- C4 (amended): `getRestoreKeys` splits the custom input on line breaks,
trims each line, discards blank (but not duplicate) fragments, puts the
type's key head in front of each, and appends the bare head last; absent or
empty input gives exactly the singleton of the bare head; the result is
never empty and its last element is the bare head. -/
theorem getRestoreKeys_spec (env : Env) (input : Option String) (type : CacheType) :
    getRestoreKeys env input type =
      deriveRestoreKeysAmended (getCachePrefix env type) input ∧
    getRestoreKeys env input type ≠ [] ∧
    (getRestoreKeys env input type).getLast? = some (getCachePrefix env type) ∧
    ((input = none ∨ input = some "") →
      getRestoreKeys env input type = [getCachePrefix env type]) := by
  have hmain : getRestoreKeys env input type =
      deriveRestoreKeysAmended (getCachePrefix env type) input := by
    match input with
    | none => rfl
    | some s =>
      by_cases hs : s = ""
      · subst hs
        show [getCachePrefix env type] = deriveRestoreKeysAmended (getCachePrefix env type) (some "")
        rfl
      · simp [getRestoreKeys, deriveRestoreKeysAmended, hs]
  refine ⟨hmain, ?_, ?_, ?_⟩
  · rw [hmain]
    match input with
    | none => simp [deriveRestoreKeysAmended]
    | some s => simp [deriveRestoreKeysAmended]
  · rw [hmain]
    match input with
    | none => simp [deriveRestoreKeysAmended]
    | some s => simp [deriveRestoreKeysAmended, List.getLast?_concat]
  · intro hin
    rw [hmain]
    rcases hin with h | h
    · rw [h]
      rfl
    · rw [h]
      rfl

/-- C4 witness: the claim theorem applied at absent input. -/
theorem getRestoreKeys_spec_witness :
    getRestoreKeys ⟨"/home/user", "win32", "sha0"⟩ none .rpc =
      [getCachePrefix ⟨"/home/user", "win32", "sha0"⟩ .rpc] :=
  (getRestoreKeys_spec ⟨"/home/user", "win32", "sha0"⟩ none .rpc).2.2.2 (Or.inl rfl)

/-! ## Claims about `restoreCache` -/

/-- C1 counterexample: with caching enabled, a store answer that matches a
restore key only (a prefix match, not the primary key) makes `restoreCache`
return `cacheHit = true`, while the claim demands `cacheHit = false` for a
matched key different from the primary key. -/
theorem restoreCache_warm_hit_cex :
    ((restoreCache ⟨"/home/user", "win32", "1234567890abcdef"⟩
        ⟨true, some "test-key", none, none⟩ .rpc
        (.matched "win32-foundry-chain-fork-") ⟨"", ""⟩).1.cacheHit = true) ∧
    ((restoreCache ⟨"/home/user", "win32", "1234567890abcdef"⟩
        ⟨true, some "test-key", none, none⟩ .rpc
        (.matched "win32-foundry-chain-fork-") ⟨"", ""⟩).1.matchedKey =
      some "win32-foundry-chain-fork-") ∧
    ((restoreCache ⟨"/home/user", "win32", "1234567890abcdef"⟩
        ⟨true, some "test-key", none, none⟩ .rpc
        (.matched "win32-foundry-chain-fork-") ⟨"", ""⟩).1.primaryKey ≠
      "win32-foundry-chain-fork-") := by
  refine ⟨rfl, rfl, ?_⟩
  decide

/-- C1 (amended): for every enabled restore call and every store response,
the returned result's primary key is the derived primary key, and
`cacheHit = true` iff the store returned a defined (non-empty) matched key —
exact or prefix alike; a defined matched key is always recorded in
`matchedKey`, and a miss leaves `matchedKey` undefined. -/
theorem restoreCache_hit_spec (env : Env) (options : CacheOptions) (type : CacheType)
    (store : StoreRestoreOutcome) (st : RunState) (hen : options.enabled = true) :
    ((restoreCache env options type store st).1.primaryKey =
      getPrimaryKey env options.primaryKey type) ∧
    ((restoreCache env options type store st).1.cacheHit = true ↔
      ∃ k, k ≠ "" ∧ store = .matched k) ∧
    (∀ k, store = .matched k → k ≠ "" →
      (restoreCache env options type store st).1.matchedKey = some k) ∧
    ((restoreCache env options type store st).1.cacheHit = false →
      (restoreCache env options type store st).1.matchedKey = none) := by
  cases store with
  | noMatch =>
    refine ⟨by simp [restoreCache, hen], ?_, ?_, ?_⟩
    · simp [restoreCache, hen]
    · intro k hk; cases hk
    · intro _; simp [restoreCache, hen]
  | thrown msg =>
    refine ⟨by simp [restoreCache, hen], ?_, ?_, ?_⟩
    · simp [restoreCache, hen]
    · intro k hk; cases hk
    · intro _; simp [restoreCache, hen]
  | matched k =>
    by_cases hk : k = ""
    · subst hk
      refine ⟨by simp [restoreCache, hen], ?_, ?_, ?_⟩
      · simp [restoreCache, hen]
      · intro k' hk' hne
        cases hk'
        exact absurd rfl hne
      · intro _; simp [restoreCache, hen]
    · refine ⟨by simp [restoreCache, hen, hk], ?_, ?_, ?_⟩
      · simp only [restoreCache, hen]
        simp [hk]
      · intro k' hk' _
        cases hk'
        simp [restoreCache, hen, hk]
      · intro hfalse
        exfalso
        simp [restoreCache, hen, hk] at hfalse

/-- C1 witness: the amended theorem applied at an enabled miss. -/
theorem restoreCache_hit_spec_witness :
    (restoreCache ⟨"/home/user", "win32", "sha0"⟩ ⟨true, none, none, none⟩ .rpc
        .noMatch ⟨"", ""⟩).1.primaryKey =
      getPrimaryKey ⟨"/home/user", "win32", "sha0"⟩ none .rpc :=
  (restoreCache_hit_spec ⟨"/home/user", "win32", "sha0"⟩ ⟨true, none, none, none⟩ .rpc
    .noMatch ⟨"", ""⟩ rfl).1

/-! ## Claims about `saveCache` -/

/-- C9: an enabled save whose resolved cache paths include one that does not
exist on the filesystem returns `false` and never invokes the store's save
operation. -/
theorem saveCache_missing_path (env : Env) (options : CacheOptions) (type : CacheType)
    (st : RunState) (fileExists : String → Bool) (store : StoreSaveOutcome)
    (hen : options.enabled = true) (p : String)
    (hp : p ∈ resolveCachePaths env options type) (hex : fileExists p = false) :
    saveCache env options type st fileExists store = (false, false) := by
  have hall : (resolveCachePaths env options type).all fileExists = false := by
    rw [List.all_eq_false]
    exact ⟨p, hp, by simp [hex]⟩
  simp [saveCache, hen, hall]

/-- C9 witness: the claim theorem applied at a concrete missing path. -/
theorem saveCache_missing_path_witness :
    saveCache ⟨"/home/user", "win32", "sha0"⟩ ⟨true, some "k", none, some ["/nonexistent/path"]⟩
      .rpc ⟨"", ""⟩ (fun _ => false) (.saved 1) = (false, false) :=
  saveCache_missing_path ⟨"/home/user", "win32", "sha0"⟩
    ⟨true, some "k", none, some ["/nonexistent/path"]⟩ .rpc ⟨"", ""⟩ (fun _ => false)
    (.saved 1) rfl "/nonexistent/path" (by decide) rfl

/-- C3: after an enabled restore whose matched key equals the derived primary
key (the exact hit persisted to run state), a subsequent `saveCache` for the
same cache type returns `false` without invoking the store's save operation;
and the suppression is exact-match-only: with a prefix-only matched key
(different from the primary key), an enabled save with existing paths does
reach the store's save call. -/
theorem saveCache_skip_exact_only (env : Env) (opts opts2 : CacheOptions)
    (type : CacheType) (k : String) (st : RunState) (fileExists : String → Bool)
    (store : StoreSaveOutcome) (hen : opts.enabled = true) (hk : k ≠ "") :
    (((restoreCache env opts type (.matched k) st).1.matchedKey =
        some (restoreCache env opts type (.matched k) st).1.primaryKey) →
      saveCache env opts2 type (restoreCache env opts type (.matched k) st).2
        fileExists store = (false, false)) ∧
    (opts2.enabled = true →
      k ≠ (restoreCache env opts type (.matched k) st).1.primaryKey →
      (resolveCachePaths env opts2 type).all fileExists = true →
      (saveCache env opts2 type (restoreCache env opts type (.matched k) st).2
        fileExists store).2 = true) := by
  have hre : restoreCache env opts type (.matched k) st =
      ({ primaryKey := getPrimaryKey env opts.primaryKey type, matchedKey := some k,
          cacheHit := true },
        ⟨getPrimaryKey env opts.primaryKey type, k⟩) := by
    simp [restoreCache, hen, hk]
  have hpkne : getPrimaryKey env opts.primaryKey type ≠ "" :=
    getPrimaryKey_ne_empty env opts.primaryKey type
  constructor
  · intro hmatch
    rw [hre] at hmatch ⊢
    simp only [Option.some.injEq] at hmatch
    subst hmatch
    by_cases hen2 : opts2.enabled = true
    · cases hall : (resolveCachePaths env opts2 type).all fileExists <;>
        simp [saveCache, hen2, jsOrString, hpkne, hall]
    · simp [saveCache, hen2]
  · intro hen2 hne hall
    rw [hre]
    rw [hre] at hne
    simp only at hne
    have hne2 : getPrimaryKey env opts.primaryKey type ≠ k := Ne.symm hne
    cases store with
    | saved cacheId =>
      by_cases hid : cacheId = -1 <;>
        simp [saveCache, hen2, jsOrString, hpkne, hall, hne2, hid]
    | thrown msg =>
      simp [saveCache, hen2, jsOrString, hpkne, hall, hne2]

/-- C3 witness: the claim theorem's suppression half applied to a concrete
exact restore hit. -/
theorem saveCache_skip_exact_only_witness :
    saveCache ⟨"/home/user", "win32", "1234567890abcdef"⟩
      ⟨true, some "test-key", none, none⟩ .rpc
      (restoreCache ⟨"/home/user", "win32", "1234567890abcdef"⟩
        ⟨true, some "test-key", none, none⟩ .rpc
        (.matched "win32-foundry-chain-fork-test-key") ⟨"", ""⟩).2
      (fun _ => true) (.saved 1) = (false, false) :=
  (saveCache_skip_exact_only ⟨"/home/user", "win32", "1234567890abcdef"⟩
    ⟨true, some "test-key", none, none⟩ ⟨true, some "test-key", none, none⟩ .rpc
    "win32-foundry-chain-fork-test-key" ⟨"", ""⟩ (fun _ => true) (.saved 1) rfl
    (by decide)).1 (by decide)

/-! ## Lookup lemmas for the association-list record model -/

theorem jsMul100_jsDivInt_zero_ne_fin (a : Int) (q : ℚ) :
    jsMul100 (jsDivInt a 0) ≠ .fin q := by
  unfold jsDivInt jsMul100
  rcases lt_trichotomy (0 : Int) a with hlt | heq | hgt
  · simp [hlt]
  · simp [← heq]
  · simp [hgt, not_lt_of_gt hgt]

theorem lookup_map_compareEntry (pl l : List (String × GasEntry)) (n : String) :
    (l.map (compareEntry pl)).lookup n =
      (l.lookup n).map (fun e => comparedEntry pl (n, e)) := by
  induction l with
  | nil => rfl
  | cons hd t ih =>
    obtain ⟨k, e⟩ := hd
    by_cases hk : n = k
    · subst hk
      simp only [List.map_cons, compareEntry, List.lookup, beq_self_eq_true]
      rfl
    · have hbeq : (n == k) = false := beq_eq_false_iff_ne.mpr hk
      simp only [List.map_cons, compareEntry, List.lookup, hbeq]
      exact ih

theorem lookup_mem_of_eq_some {β : Type} {l : List (String × β)} {n : String} {e : β}
    (h : l.lookup n = some e) : (n, e) ∈ l := by
  induction l with
  | nil => cases h
  | cons hd t ih =>
    obtain ⟨k, b⟩ := hd
    by_cases hk : n = k
    · subst hk
      simp only [List.lookup, beq_self_eq_true, Option.some.injEq] at h
      subst h
      exact List.mem_cons_self _ _
    · have hbeq : (n == k) = false := beq_eq_false_iff_ne.mpr hk
      simp only [List.lookup, hbeq] at h
      exact List.mem_cons_of_mem _ (ih h)

/-! ## Claims about `compareGasSnapshots` values -/

/-- C2 counterexample: the claim says the division by zero never happens —
that an entry whose previous value is `0` gets no `changePercentage`. The
code only checks that the previous *entry* exists, not that its value is
nonzero: with a previous value of `0`, the comparison is attached and its
`changePercentage` is the division-by-zero result `Infinity`. -/
theorem compareGasSnapshots_divzero_cex :
    (compareGasSnapshots ⟨"t1", "s1", [("t", ⟨100, none⟩)]⟩
        ⟨"t0", "s0", [("t", ⟨0, none⟩)]⟩).testResults =
      [("t", ⟨100, some ⟨0, 100, JsNum.posInf⟩⟩)] := by
  rfl

/-- C2 (amended): for every entry name present in both snapshots,
`compareGasSnapshots` attaches a comparison with `change` = current minus
previous and `changePercentage` = `100 * change / previous` whenever the
previous value is nonzero; when the previous value is `0` the comparison is
still attached, but its `changePercentage` is never a finite number (it is
the IEEE division-by-zero value `Infinity`, `-Infinity` or `NaN`). -/
theorem compareGasSnapshots_formula (cur prev : GasSnapshot) (name : String)
    (e p : GasEntry) (hc : cur.testResults.lookup name = some e)
    (hp : prev.testResults.lookup name = some p) :
    ((compareGasSnapshots cur prev).testResults.lookup name =
      some ⟨e.gasUsed, some ⟨p.gasUsed, e.gasUsed - p.gasUsed,
        jsMul100 (jsDivInt (e.gasUsed - p.gasUsed) p.gasUsed)⟩⟩) ∧
    (p.gasUsed ≠ 0 →
      jsMul100 (jsDivInt (e.gasUsed - p.gasUsed) p.gasUsed) =
        .fin (100 * ((e.gasUsed - p.gasUsed : Int) : ℚ) / ((p.gasUsed : Int) : ℚ))) ∧
    (p.gasUsed = 0 → ∀ q : ℚ,
      jsMul100 (jsDivInt (e.gasUsed - p.gasUsed) p.gasUsed) ≠ .fin q) := by
  refine ⟨?_, ?_, ?_⟩
  · show (cur.testResults.map (compareEntry prev.testResults)).lookup name = _
    rw [lookup_map_compareEntry, hc]
    simp [comparedEntry, hp]
  · intro hne
    simp only [jsDivInt, if_neg hne, jsMul100, JsNum.fin.injEq]
    ring
  · intro h0 q
    rw [h0]
    exact jsMul100_jsDivInt_zero_ne_fin _ q

/-- C2 witness: the amended theorem applied at the spec's worked example. -/
theorem compareGasSnapshots_formula_witness :
    (GasSnapshot.mk "t1" "s1" [("a", ⟨20000, none⟩)]).testResults.lookup "a" =
      some ⟨20000, none⟩ ∧
    (GasSnapshot.mk "t0" "s0" [("a", ⟨22000, none⟩)]).testResults.lookup "a" =
      some ⟨22000, none⟩ ∧
    (compareGasSnapshots ⟨"t1", "s1", [("a", ⟨20000, none⟩)]⟩
        ⟨"t0", "s0", [("a", ⟨22000, none⟩)]⟩).testResults.lookup "a" =
      some ⟨20000, some ⟨22000, 20000 - 22000, jsMul100 (jsDivInt (20000 - 22000) 22000)⟩⟩ :=
  ⟨rfl, rfl,
    (compareGasSnapshots_formula ⟨"t1", "s1", [("a", ⟨20000, none⟩)]⟩
      ⟨"t0", "s0", [("a", ⟨22000, none⟩)]⟩ "a" ⟨20000, none⟩ ⟨22000, none⟩ rfl rfl).1⟩

/-- C5: the output's entry-name list of `compareGasSnapshots` is exactly the
current snapshot's entry-name list (in order); a name absent from the current
snapshot is absent from the output, a name present only in the current
snapshot keeps its entry untouched (in particular it gets no synthetic
comparison), and a name present in both gets its comparison attached. -/
theorem compareGasSnapshots_entry_sets (cur prev : GasSnapshot) :
    ((compareGasSnapshots cur prev).testResults.map Prod.fst =
      cur.testResults.map Prod.fst) ∧
    (∀ name, cur.testResults.lookup name = none →
      (compareGasSnapshots cur prev).testResults.lookup name = none) ∧
    (∀ name e, cur.testResults.lookup name = some e →
      prev.testResults.lookup name = none →
      (compareGasSnapshots cur prev).testResults.lookup name = some e) ∧
    (∀ name e, cur.testResults.lookup name = some e →
      (prev.testResults.lookup name).isSome = true →
      ∃ c, (compareGasSnapshots cur prev).testResults.lookup name =
        some { e with comparison := some c }) := by
  refine ⟨?_, ?_, ?_, ?_⟩
  · show (cur.testResults.map (compareEntry prev.testResults)).map Prod.fst = _
    rw [List.map_map]
    rfl
  · intro name h
    show (cur.testResults.map (compareEntry prev.testResults)).lookup name = none
    rw [lookup_map_compareEntry, h]
    rfl
  · intro name e hc hp
    show (cur.testResults.map (compareEntry prev.testResults)).lookup name = some e
    rw [lookup_map_compareEntry, hc]
    simp [comparedEntry, hp]
  · intro name e hc hp
    obtain ⟨p, hp'⟩ := Option.isSome_iff_exists.mp hp
    refine ⟨⟨p.gasUsed, e.gasUsed - p.gasUsed,
      jsMul100 (jsDivInt (e.gasUsed - p.gasUsed) p.gasUsed)⟩, ?_⟩
    show (cur.testResults.map (compareEntry prev.testResults)).lookup name = _
    rw [lookup_map_compareEntry, hc]
    simp [comparedEntry, hp']

/-- C5 witness: the claim theorem applied at the spec's worked example — the
new test `c` is untouched and the dropped test `b` is absent. -/
theorem compareGasSnapshots_entry_sets_witness :
    (GasSnapshot.mk "t1" "s1" [("a", ⟨20000, none⟩), ("c", ⟨30000, none⟩)]).testResults.lookup
      "c" = some ⟨30000, none⟩ ∧
    (GasSnapshot.mk "t0" "s0" [("a", ⟨22000, none⟩), ("b", ⟨35000, none⟩)]).testResults.lookup
      "c" = none ∧
    (compareGasSnapshots ⟨"t1", "s1", [("a", ⟨20000, none⟩), ("c", ⟨30000, none⟩)]⟩
        ⟨"t0", "s0", [("a", ⟨22000, none⟩), ("b", ⟨35000, none⟩)]⟩).testResults.lookup "c" =
      some ⟨30000, none⟩ :=
  ⟨rfl, rfl,
    (compareGasSnapshots_entry_sets
      ⟨"t1", "s1", [("a", ⟨20000, none⟩), ("c", ⟨30000, none⟩)]⟩
      ⟨"t0", "s0", [("a", ⟨22000, none⟩), ("b", ⟨35000, none⟩)]⟩).2.2.1 "c"
      ⟨30000, none⟩ rfl rfl⟩

/-! ## Claims about the history file -/

/-- C6: appending a record to the history pushes it (the result is a suffix
of `history ++ [record]` ending in the record) and truncates to the most
recent 100 entries, so the stored length is `min (n + 1) 100` and never
exceeds 100; appending to a 100-entry log yields a 100-entry log whose first
element is the original log's second element. -/
theorem addGasSnapshotToHistory_spec (history : List GasSnapshot) (snapshot : GasSnapshot) :
    (addGasSnapshotToHistory history snapshot).length = min (history.length + 1) 100 ∧
    (addGasSnapshotToHistory history snapshot).length ≤ 100 ∧
    addGasSnapshotToHistory history snapshot <:+ (history ++ [snapshot]) ∧
    (addGasSnapshotToHistory history snapshot).getLast? = some snapshot ∧
    (history.length = 100 →
      (addGasSnapshotToHistory history snapshot).length = 100 ∧
      (addGasSnapshotToHistory history snapshot).head? = history[1]?) := by
  have hplen : (history ++ [snapshot]).length = history.length + 1 := by simp
  have hlen : (addGasSnapshotToHistory history snapshot).length =
      min (history.length + 1) 100 := by
    simp only [addGasSnapshotToHistory]
    rw [List.length_drop, hplen]
    omega
  refine ⟨hlen, by omega, List.drop_suffix _ _, ?_, ?_⟩
  · simp only [addGasSnapshotToHistory]
    rw [List.getLast?_drop]
    have hcond : ¬ ((history ++ [snapshot]).length ≤ (history ++ [snapshot]).length - 100) := by
      rw [hplen]
      omega
    rw [if_neg hcond, List.getLast?_concat]
  · intro h100
    refine ⟨by rw [hlen, h100]; omega, ?_⟩
    simp only [addGasSnapshotToHistory]
    rw [List.head?_drop, hplen, h100]
    have hidx : (100 + 1 - 100 : ℕ) = 1 := by norm_num
    rw [hidx]
    have h1 : (1 : ℕ) < history.length := by omega
    rw [List.getElem?_append, if_pos h1]

/-- C6 witness: the claim theorem applied at a concrete 100-entry history. -/
theorem addGasSnapshotToHistory_spec_witness :
    exampleHistory.length = 100 ∧
    (addGasSnapshotToHistory exampleHistory ⟨"z", "", []⟩).head? = exampleHistory[1]? :=
  ⟨by decide,
    ((addGasSnapshotToHistory_spec exampleHistory ⟨"z", "", []⟩).2.2.2.2 (by decide)).2⟩

/-! ## Claims about `parseGasSnapshot` -/

/-- C8: `parseGasSnapshot` is a total function (no throw is reachable); the
empty input parses to the empty mapping, the worked example parses to exactly
its two matching lines, and a line that does not match the pattern is
silently skipped wherever it stands. -/
theorem parseGasSnapshot_spec :
    parseGasSnapshot "" = [] ∧
    parseGasSnapshot "test_a() (gas: 100)\nnoise\ntest_b() (gas: 200)" =
      [("test_a()", 100), ("test_b()", 200)] ∧
    (∀ xs ys bad, matchGasLine bad = none →
      parseGasLines (xs ++ bad :: ys) = parseGasLines (xs ++ ys)) := by
  refine ⟨rfl, by decide, ?_⟩
  intro xs ys bad hbad
  simp only [parseGasLines]
  rw [List.foldl_append, List.foldl_append, List.foldl_cons]
  have hstep : parseGasStep (List.foldl parseGasStep [] xs) bad =
      List.foldl parseGasStep [] xs := by
    simp [parseGasStep, hbad]
  rw [hstep]

/-- C8 witness: the skipping clause of the claim theorem applied at the
worked example's noise line. -/
theorem parseGasSnapshot_spec_witness :
    matchGasLine "noise" = none ∧
    parseGasLines (["test_a() (gas: 100)"] ++ "noise" :: ["test_b() (gas: 200)"]) =
      parseGasLines (["test_a() (gas: 100)"] ++ ["test_b() (gas: 200)"]) :=
  ⟨by decide,
    parseGasSnapshot_spec.2.2 ["test_a() (gas: 100)"] ["test_b() (gas: 200)"] "noise"
      (by decide)⟩

/-! ## Claims about `generateGasReport` -/

theorem descLe_trans (x y z : JsNum) (h1 : descLe x y = true) (h2 : descLe y z = true) :
    descLe x z = true := by
  unfold descLe at h1 h2 ⊢
  simp only [Bool.or_eq_true, Bool.and_eq_true, decide_eq_true_eq] at h1 h2 ⊢
  rcases h1 with h1 | ⟨h1a, h1b⟩
  · rcases h2 with h2 | ⟨h2a, h2b⟩
    · exact Or.inl (lt_trans h2 h1)
    · exact Or.inl (by rw [h2a]; exact h1)
  · rcases h2 with h2 | ⟨h2a, h2b⟩
    · exact Or.inl (by rw [← h1a]; exact h2)
    · exact Or.inr ⟨h2a.trans h1a, le_trans h2b h1b⟩

theorem descLe_total (x y : JsNum) : (descLe x y || descLe y x) = true := by
  unfold descLe
  simp only [Bool.or_eq_true, Bool.and_eq_true, decide_eq_true_eq]
  rcases lt_trichotomy (numRank y).1 (numRank x).1 with h | h | h
  · exact Or.inl (Or.inl h)
  · rcases le_total (numRank y).2 (numRank x).2 with h2 | h2
    · exact Or.inl (Or.inr ⟨h, h2⟩)
    · exact Or.inr (Or.inr ⟨h.symm, h2⟩)
  · exact Or.inr (Or.inl h)

theorem filter_lookup_comparison :
    ∀ l : List (String × GasEntry), (l.map Prod.fst).Nodup →
      ((l.map Prod.fst).filter fun n =>
        match l.lookup n with
        | some e => e.comparison.isSome
        | none => false) =
      (l.filter fun p => p.2.comparison.isSome).map Prod.fst := by
  intro l
  induction l with
  | nil => intro _; rfl
  | cons hd t ih =>
    intro hnd
    obtain ⟨k, e⟩ := hd
    simp only [List.map_cons, List.nodup_cons] at hnd
    obtain ⟨hk, hndt⟩ := hnd
    have hcongr : ((t.map Prod.fst).filter fun n =>
        match ((k, e) :: t).lookup n with
        | some e' => e'.comparison.isSome
        | none => false) =
        ((t.map Prod.fst).filter fun n =>
          match t.lookup n with
          | some e' => e'.comparison.isSome
          | none => false) := by
      apply List.filter_congr
      intro n hn
      have hne : n ≠ k := fun h => hk (h ▸ hn)
      have hbeq : (n == k) = false := beq_eq_false_iff_ne.mpr hne
      simp only [List.lookup, hbeq]
    have hfk : (match List.lookup k ((k, e) :: t) with
        | some e' => e'.comparison.isSome
        | none => false) = e.comparison.isSome := by
      simp only [List.lookup, beq_self_eq_true]
    cases hcomp : e.comparison.isSome
    · simp only [List.map_cons, List.filter_cons, hfk, hcomp, Bool.false_eq_true, if_false]
      rw [hcongr, ih hndt]
    · simp only [List.map_cons, List.filter_cons, hfk, hcomp, if_true, List.map_cons]
      rw [hcongr, ih hndt]

/-- C7: `generateGasReport` yields the no-data message on an empty entry set
and the no-comparison message when entries exist but none carries a
comparison; otherwise the table's row list is a permutation of exactly the
entries with a comparison, ordered descending by `changePercentage` (under
the JS comparator's ranking, infinities above and below all finite values),
and a row carries a directional marker iff `|changePercentage| >= 5`, red for
an increase, green otherwise. -/
theorem generateGasReport_spec (s : GasSnapshot)
    (hnd : (s.testResults.map Prod.fst).Nodup) :
    (s.testResults = [] → generateGasReport s = NO_DATA_MESSAGE) ∧
    (s.testResults ≠ [] → (∀ p ∈ s.testResults, p.2.comparison = none) →
      generateGasReport s = NO_COMPARISON_MESSAGE) ∧
    (sortedComparisonTests s).Perm
      ((s.testResults.filter fun p => p.2.comparison.isSome).map Prod.fst) ∧
    List.Pairwise (fun a b => descLe (sortChangeOf s a) (sortChangeOf s b) = true)
      (sortedComparisonTests s) ∧
    (∀ name e c q, s.testResults.lookup name = some e → e.comparison = some c →
      c.changePercentage = .fin q →
      ((indicatorOf c ≠ "" ↔ 5 ≤ |q|) ∧
        (5 ≤ |q| → indicatorOf c = if 0 < c.change then " 🔴" else " 🟢"))) := by
  have hfiltereq : ((s.testResults.map Prod.fst).filter fun n => hasComparison s n) =
      (s.testResults.filter fun p => p.2.comparison.isSome).map Prod.fst :=
    filter_lookup_comparison s.testResults hnd
  refine ⟨?_, ?_, ?_, ?_, ?_⟩
  · intro h
    simp [generateGasReport, h]
  · intro hne hnone
    have hfilter : (s.testResults.filter fun p => p.2.comparison.isSome) = [] := by
      apply List.filter_eq_nil_iff.mpr
      intro p hp
      simp [hnone p hp]
    have hnames : ((s.testResults.map Prod.fst).filter fun n => hasComparison s n) = [] := by
      rw [hfiltereq, hfilter]
      rfl
    have hlen1 : ¬ ((s.testResults.map Prod.fst).length = 0) := by
      intro h
      exact hne (List.map_eq_nil_iff.mp (List.length_eq_zero.mp h))
    simp [generateGasReport, hlen1, hnames, hne]
  · have hperm := List.mergeSort_perm
      ((s.testResults.map Prod.fst).filter fun n => hasComparison s n)
      (fun a b => descLe (sortChangeOf s a) (sortChangeOf s b))
    exact hfiltereq ▸ hperm
  · unfold sortedComparisonTests
    exact @List.sorted_mergeSort String
      (fun a b => descLe (sortChangeOf s a) (sortChangeOf s b))
      (fun a b c h1 h2 => descLe_trans _ _ _ h1 h2)
      (fun a b => descLe_total _ _)
      ((s.testResults.map Prod.fst).filter fun n => hasComparison s n)
  · intro name e c q _ _ hq
    have hind : indicatorOf c =
        if (5 : ℚ) ≤ |q| then (if 0 < c.change then " 🔴" else " 🟢") else "" := by
      unfold indicatorOf
      rw [hq]
      simp [jsAbsGe, GAS_SNAPSHOT_COMPARISON_THRESHOLD]
    rw [hind]
    by_cases h5 : (5 : ℚ) ≤ |q|
    · rw [if_pos h5]
      refine ⟨⟨fun _ => h5, fun _ => ?_⟩, fun _ => rfl⟩
      by_cases hch : 0 < c.change
      · rw [if_pos hch]
        decide
      · rw [if_neg hch]
        decide
    · rw [if_neg h5]
      refine ⟨?_, fun h => absurd h h5⟩
      simp [h5]

/-- C7 witness: the claim theorem applied at an empty snapshot. -/
theorem generateGasReport_spec_witness :
    ((GasSnapshot.mk "t" "s" []).testResults.map Prod.fst).Nodup ∧
    generateGasReport ⟨"t", "s", []⟩ = NO_DATA_MESSAGE :=
  ⟨by decide, (generateGasReport_spec ⟨"t", "s", []⟩ (by decide)).1 rfl⟩

/-! ## The frame property of `compareGasSnapshots` -/

theorem compareStepHeap_length_le (resTbl : Nat) (prevFields : List (String × Nat))
    (name : String) (addr : Nat) (h : Heap) :
    h.length ≤ (compareStepHeap resTbl prevFields name addr h).length := by
  unfold compareStepHeap
  split
  · exact le_refl _
  · split
    · dsimp only
      split
      · rw [List.length_set, List.length_append]
        omega
      · rw [List.length_append]
        omega
    · exact le_refl _

theorem compareStepHeap_getElem?_eq (resTbl : Nat) (prevFields : List (String × Nat))
    (name : String) (addr : Nat) (h : Heap) (i : Nat)
    (hi : i < h.length) (hne : i ≠ resTbl) :
    (compareStepHeap resTbl prevFields name addr h)[i]? = h[i]? := by
  unfold compareStepHeap
  split
  · rfl
  · split
    · dsimp only
      split
      · rw [List.getElem?_set_ne (Ne.symm hne), List.getElem?_append, if_pos hi]
      · rw [List.getElem?_append, if_pos hi]
    · rfl

theorem compareLoop_getElem?_eq (resTbl : Nat) (prevFields : List (String × Nat)) :
    ∀ (fields : List (String × Nat)) (h : Heap) (i : Nat),
      i < h.length → i ≠ resTbl →
      (compareLoop resTbl prevFields fields h)[i]? = h[i]? := by
  intro fields
  induction fields with
  | nil =>
    intro h i _ _
    rfl
  | cons p rest ih =>
    intro h i hi hne
    obtain ⟨name, addr⟩ := p
    have hlen := compareStepHeap_length_le resTbl prevFields name addr h
    have hstep := compareStepHeap_getElem?_eq resTbl prevFields name addr h i hi hne
    calc (compareLoop resTbl prevFields ((name, addr) :: rest) h)[i]?
        = (compareLoop resTbl prevFields rest
            (compareStepHeap resTbl prevFields name addr h))[i]? := rfl
      _ = (compareStepHeap resTbl prevFields name addr h)[i]? :=
          ih _ i (lt_of_lt_of_le hi hlen) hne
      _ = h[i]? := hstep

/-- C10: `compareGasSnapshots` mutates neither argument — every heap object
that existed before the call (both snapshot objects, both results records and
every per-test entry object) is unchanged afterwards, because the function
only allocates fresh objects and writes fields of its freshly allocated
results record; and the returned snapshot object carries the current
snapshot's `timestamp` and `commitSha`. -/
theorem compareGasSnapshotsHeap_frame (h : Heap) (cur prev : Nat)
    (ts sha : String) (curTbl : Nat) (curFields : List (String × Nat))
    (pts psha : String) (prevTbl : Nat) (prevFields : List (String × Nat))
    (hcur : h[cur]? = some (.snap ts sha curTbl))
    (hprev : h[prev]? = some (.snap pts psha prevTbl))
    (hct : h[curTbl]? = some (.table curFields))
    (hpt : h[prevTbl]? = some (.table prevFields)) :
    (∀ i, i < h.length → (compareGasSnapshotsHeap h cur prev).1[i]? = h[i]?) ∧
    ((compareGasSnapshotsHeap h cur prev).1[(compareGasSnapshotsHeap h cur prev).2]? =
      some (.snap ts sha h.length)) := by
  have hmain : compareGasSnapshotsHeap h cur prev =
      (compareLoop h.length prevFields curFields
        ((h ++ [HeapObj.table curFields]) ++ [HeapObj.snap ts sha h.length]),
        (h ++ [HeapObj.table curFields]).length) := by
    unfold compareGasSnapshotsHeap
    rw [hcur, hprev]
    dsimp only
    rw [hct, hpt]
  rw [hmain]
  have hlen2 : ((h ++ [HeapObj.table curFields]) ++ [HeapObj.snap ts sha h.length]).length =
      h.length + 2 := by
    simp
  constructor
  · intro i hi
    rw [compareLoop_getElem?_eq h.length prevFields curFields _ i
      (by rw [hlen2]; omega) (by omega)]
    rw [List.getElem?_append, if_pos (by simp; omega), List.getElem?_append, if_pos hi]
  · have hraddr : (h ++ [HeapObj.table curFields]).length = h.length + 1 := by simp
    rw [hraddr]
    rw [compareLoop_getElem?_eq h.length prevFields curFields _ (h.length + 1)
      (by rw [hlen2]; omega) (by omega)]
    rw [show h.length + 1 = (h ++ [HeapObj.table curFields]).length by simp]
    exact List.getElem?_concat_length _ _

/-- C10 witness: the claim theorem applied at a concrete heap — the first
pre-existing object (an entry of the current snapshot) is unchanged. -/
theorem compareGasSnapshotsHeap_frame_witness :
    exampleHeap[4]? = some (.snap "t1" "s1" 2) ∧
    (compareGasSnapshotsHeap exampleHeap 4 5).1[0]? = exampleHeap[0]? :=
  ⟨rfl,
    (compareGasSnapshotsHeap_frame exampleHeap 4 5 "t1" "s1" 2 [("t", 0)] "t0" "s0" 3
      [("t", 1)] rfl rfl rfl rfl).1 0 (by decide)⟩

end Foundry
